import Mathlib

/-!
Shallow embedding of the helios-sdk-python client library, covering:
* `heliosSDK/core/baseClasses.py` — `SDKCore._parseInputsForQuery`,
  `IndexMixin.index` (pagination window generation, first-page sizing,
  truncation warning, threaded page fetching) and
  `IndexMixin.__indexRunner` (queue worker writing into a slot list);
* `helios/core/structure.py` — `Record`, `ImageRecord`, `DataContainer`
  (`succeeded`/`failed` partitions, `__getattr__` projection);
* `helios/observations_api.py` — `Observations.__preview_worker`.
-/

namespace Helios

/-- Model of `SDKCore._parseInputsForQuery` input values: a filter value is
either a scalar or a list/tuple (already rendered through `str`). -/
inductive QVal where
  | scalar (s : String)
  | seq (xs : List String)

/-- `SDKCore._parseInputsForQuery` (baseClasses.py lines 34-43): iterate over
the entries; a list/tuple value appends `str(key) + ','.join(values) + '&'`
(note: no `=` in this branch of the source), a scalar appends
`str(key) + '=' + str(value) + '&'`; finally `query_str[:-1]` drops the
trailing ampersand. -/
def parseInputsForQuery (input : List (String × QVal)) : String :=
  let query_str := input.foldl (fun acc kv =>
    match kv.2 with
    | QVal.seq xs => acc ++ kv.1 ++ String.intercalate "," xs ++ "&"
    | QVal.scalar s => acc ++ kv.1 ++ "=" ++ s ++ "&") ""
  query_str.dropRight 1

/-- `max_skip = 4000` (baseClasses.py line 49). -/
def max_skip : Nat := 4000

/-- `temp_limit` computation (baseClasses.py lines 64-67): the window at
offset `i` gets `max_skip - i` when `i + limit` overshoots `max_skip`,
otherwise `limit`. -/
def tempLimit (ms i limit : Nat) : Nat :=
  if i + limit > ms then ms - i else limit

/-- The loop `for i in range(skip, max_skip, limit)` (baseClasses.py lines
63-75), with fuel bounding the number of iterations.  Each iteration emits the
window `(i, temp_limit)` and advances `i` by `limit`.  For a positive `limit`
(`range` requires a non-zero step) the loop runs at most `ms` times, so fuel
`ms` is an exact model. -/
def windowsAux (limit ms : Nat) : Nat → Nat → List (Nat × Nat)
  | 0, _ => []
  | fuel + 1, i =>
    if i < ms then (i, tempLimit ms i limit) :: windowsAux limit ms fuel (i + limit)
    else []

/-- The full list of query windows `(skip_i, limit_i)` built by
`IndexMixin.index` before the first page is fetched (baseClasses.py lines
60-75). -/
def windows (skip limit : Nat) : List (Nat × Nat) :=
  windowsAux limit max_skip max_skip skip

/-- `int(ceil((total - skip) / float(limit))) - 1` (baseClasses.py line 104):
the number of extra page queries after the first.  For a positive `limit`,
`ceil(a / limit) = fdiv (a + limit - 1) limit` over the integers, matching
Python's `ceil` on the exact quotient. -/
def nQueriesNeeded (total skip limit : Int) : Int :=
  Int.fdiv (total - skip + limit - 1) limit - 1

/-- Python list slicing `l[0:n]` (baseClasses.py line 105): for `n >= 0` take
the first `n` elements; a negative `n` counts back from the end. -/
def pySlice0 (l : List α) (n : Int) : List α :=
  l.take (if 0 ≤ n then n.toNat else ((l.length : Int) + n).toNat)

/-- One decoded page response: the declared `total` (from
`properties.total` or `total`) and the number of items in the payload list
(`features` or `results`). -/
structure Response where
  total : Nat
  nItems : Nat
deriving DecidableEq

/-- Outcome of one `IndexMixin.index` call.
* `popError` — `queries.pop(0)` raised `IndexError` on an empty list;
* `fatalFirst` — the first (sizing) request raised, propagating to the caller;
* `hang` — the queue join never returned: either a worker thread died on a
  raising request before calling `task_done`, or tasks were enqueued with no
  worker threads; the recorded flag is the truncation warning already emitted;
* `ok` — the returned page list (window paired with its response, in
  ascending-skip order) and whether the truncation warning was emitted. -/
inductive IndexOutcome where
  | popError
  | fatalFirst
  | hang (warn : Bool)
  | ok (pages : List ((Nat × Nat) × Response)) (warn : Bool)
deriving DecidableEq

/-- Sequentially fetch every window, failing when any single request raises
(`RequestManager.getRequest` calls `raise_for_status`). -/
def fetchAll (fetch : Nat → Nat → Option Response) :
    List (Nat × Nat) → Option (List ((Nat × Nat) × Response))
  | [] => some []
  | w :: ws =>
    match fetch w.1 w.2 with
    | none => none
    | some r =>
      match fetchAll fetch ws with
      | none => none
      | some rest => some ((w, r) :: rest)

/-- `IndexMixin.index` (baseClasses.py lines 48-125) as a function of a fetch
oracle (`none` models a raising request).  Steps: build the window list; pop
and fetch the first window; emit the truncation warning iff
`total > max_skip`; return the single first page when it holds fewer than
`limit` items; otherwise slice the remaining queries to
`n_queries_needed`, and run them through the worker pool of
`min(20, n_queries_needed)` threads.  A raising worker dies before
`task_done`, so the queue join — and hence the whole call — never returns;
the same happens when tasks are enqueued while `min(20, n_queries_needed)`
is not positive (no worker threads are started). -/
def indexRun (fetch : Nat → Nat → Option Response) (skip limit : Nat) :
    IndexOutcome :=
  match windows skip limit with
  | [] => IndexOutcome.popError
  | w0 :: rest =>
    match fetch w0.1 w0.2 with
    | none => IndexOutcome.fatalFirst
    | some r0 =>
      let warn := decide (r0.total > max_skip)
      if r0.nItems < limit then IndexOutcome.ok [(w0, r0)] warn
      else
        let needed : Int := nQueriesNeeded (r0.total : Int) (skip : Int) (limit : Int)
        let qs := pySlice0 rest needed
        if qs = [] then IndexOutcome.ok [(w0, r0)] warn
        else if min 20 needed ≤ 0 then IndexOutcome.hang warn
        else
          match fetchAll fetch qs with
          | none => IndexOutcome.hang warn
          | some pages => IndexOutcome.ok ((w0, r0) :: pages) warn

/-- The truncation-warning flag of an outcome, when the call got far enough
to read the first page's declared total. -/
def warnOf : IndexOutcome → Option Bool
  | IndexOutcome.popError => none
  | IndexOutcome.fatalFirst => none
  | IndexOutcome.hang w => some w
  | IndexOutcome.ok _ w => some w

/-- The fetched windows of a returned page list. -/
def okWindows : IndexOutcome → Option (List (Nat × Nat))
  | IndexOutcome.ok pages _ => some (pages.map Prod.fst)
  | _ => none

/-- Total number of payload items across a returned page list (the size of
the merged collection). -/
def mergedCount : IndexOutcome → Option Nat
  | IndexOutcome.ok pages _ => some ((pages.map (fun p => p.2.nItems)).sum)
  | _ => none

/-- Whether the call ever returns control to the caller (normally or by
raising); `hang` is the one non-terminating outcome. -/
def terminates : IndexOutcome → Bool
  | IndexOutcome.hang _ => false
  | _ => true

/-- A well-behaved server holding 250 items: each page at offset `s` with
page size `l` reports `total = 250` and returns `min l (250 - s)` items. -/
def server250 : Nat → Nat → Option Response :=
  fun s l => some ⟨250, min l (250 - s)⟩

/-- A server holding exactly 4000 items (the `max_skip` boundary). -/
def server4000 : Nat → Nat → Option Response :=
  fun s l => some ⟨4000, min l (4000 - s)⟩

/-- Like `server250`, but the request at offset 100 raises. -/
def flakyServer : Nat → Nat → Option Response :=
  fun s l => if s = 100 then none else some ⟨250, min l (250 - s)⟩

/-- The threaded task execution pattern shared by `IndexMixin.index` /
`IndexMixin.__indexRunner` (baseClasses.py lines 107-137) and
`DownloadImagesMixin.downloadImages` (lines 181-223): tasks `(payload, i)`
are enqueued in submission order over a pre-allocated slot list `init`
(`results = [[] for _ in queries]`), and each worker writes the outcome of
task `i` into `results[i]`.  `order` is the sequence in which tasks complete,
an arbitrary interleaving chosen by the scheduler; each completion performs
`results[index] = worker(tasks[index])`. -/
def runThreaded (worker : β → α) (tasks : List β) (init : List α)
    (order : List (Fin tasks.length)) : List α :=
  order.foldl (fun res i => res.set i.val (worker (tasks.get i))) init

/-- `Record` (structure.py lines 127-157): every field is optional, each
defaulting to `None` in the constructor. -/
structure Record (μ κ γ ε : Type) where
  message : Option μ
  query : Option κ
  content : Option γ
  error : Option ε

/-- `Record.ok` (structure.py lines 146-157): `False` when an error is
present, `True` otherwise. -/
def Record.ok (r : Record μ κ γ ε) : Bool :=
  r.error.isNone

/-- `DataContainer.succeeded` (structure.py lines 72-75):
`[x for x in self._raw_data if x.ok]`. -/
def succeeded (l : List (Record μ κ γ ε)) : List (Record μ κ γ ε) :=
  l.filter (fun x => x.ok)

/-- `DataContainer.failed` (structure.py lines 67-70):
`[x for x in self._raw_data if not x.ok]`. -/
def failed (l : List (Record μ κ γ ε)) : List (Record μ κ γ ε) :=
  l.filter (fun x => !x.ok)

/-- The value of one attribute of a `Record`, as returned by `getattr`. -/
inductive AttrVal (μ κ γ ε : Type) where
  | msg (m : Option μ)
  | qry (q : Option κ)
  | cont (c : Option γ)
  | err (e : Option ε)
  | okv (b : Bool)

/-- Python `getattr` on a `Record` instance: the four constructor-set fields
plus the `ok` property are defined; any other name raises `AttributeError`
(modelled as `none`). -/
def Record.attr (r : Record μ κ γ ε) (name : String) :
    Option (AttrVal μ κ γ ε) :=
  if name = "message" then some (AttrVal.msg r.message)
  else if name = "query" then some (AttrVal.qry r.query)
  else if name = "content" then some (AttrVal.cont r.content)
  else if name = "error" then some (AttrVal.err r.error)
  else if name = "ok" then some (AttrVal.okv r.ok)
  else none

/-- `DataContainer.__getattr__` (structure.py lines 88-101):
`[getattr(x, item) for x in self._raw_data]`.  The comprehension evaluates
`getattr` left to right; the first record lacking the attribute raises
`AttributeError` (modelled as `Except.error ()`), aborting the whole access. -/
def containerGetattr (attr : ρ → String → Option υ) (records : List ρ)
    (name : String) : Except Unit (List υ) :=
  match records with
  | [] => Except.ok []
  | r :: rs =>
    match attr r name with
    | none => Except.error ()
    | some v =>
      match containerGetattr attr rs name with
      | Except.error e => Except.error e
      | Except.ok vs => Except.ok (v :: vs)

/-- `ImageRecord` (structure.py lines 160-181): a `Record` with the extra
`name` and `output_file` fields, all defaulting to `None`. -/
structure ImageRecord (μ κ γ ε : Type) where
  message : Option μ
  query : Option κ
  content : Option γ
  error : Option ε
  name : Option String
  output_file : Option String

/-- `ok` as inherited by `ImageRecord` from `Record` (structure.py lines
146-157). -/
def ImageRecord.ok (r : ImageRecord μ κ γ ε) : Bool :=
  r.error.isNone

/-- The `Message` namedtuple built by `Observations.preview`
(observations_api.py lines 116-118). -/
structure PreviewMsg where
  observation_id : String
  out_dir : Option String
  return_image_data : Bool

/-- An HTTP response as consumed by the preview worker: the final (redirected)
URL and the body. -/
structure HttpResp (β : Type) where
  url : String
  content : β

/-- `Observations.__preview_worker` (observations_api.py lines 135-167) as a
function of the transport (`get`, where `Except.error` models a raised
`RequestException`), the URL-to-filename parser (`parsing_utils.parse_url`
plus `os.path.split`) and the image decoder (`PIL` + `numpy`).  On a raised
request it returns a record with only `message`, `query` and `error` set; on
success it sets `output_file` only when `out_dir` was given and `content`
only when `return_image_data` is true (`img_data = None` otherwise). -/
def previewWorker (get : String → Except ε (HttpResp β))
    (parseName : String → String) (decode : β → γ)
    (baseUrl coreApi : String) (msg : PreviewMsg) :
    ImageRecord PreviewMsg String γ ε :=
  let query_str := baseUrl ++ "/" ++ coreApi ++ "/" ++ msg.observation_id ++ "/preview"
  match get query_str with
  | Except.error e =>
    { message := some msg, query := some query_str, content := none,
      error := some e, name := none, output_file := none }
  | Except.ok resp =>
    let image_name := parseName resp.url
    let out_file := msg.out_dir.map (fun d => d ++ "/" ++ image_name)
    let img_data := if msg.return_image_data then some (decode resp.content) else none
    { message := some msg, query := some query_str, content := img_data,
      error := none, name := some image_name, output_file := out_file }

/-- A transport that always succeeds with a fixed image URL and unit body. -/
def okGet : String → Except Unit (HttpResp Unit) :=
  fun _ => Except.ok ⟨"https://cdn.example/images/img.jpg?sig=abc", ()⟩

/-- A demo record with no error and no content. -/
def demoRecord : Record Unit Unit Unit Unit :=
  { message := none, query := none, content := some (), error := none }

/-- A demo record carrying an error. -/
def demoFailedRecord : Record Unit Unit Unit Unit :=
  { message := none, query := none, content := none, error := some () }

/-- A small concrete batch of records for witness instantiations. -/
def demoRecords : List (Record Unit Unit Unit Unit) :=
  [demoRecord, demoFailedRecord, demoRecord]

/-- Whether a container attribute access returned data (as opposed to raising
`AttributeError`). -/
def isOkE : Except Unit (List υ) → Bool
  | Except.ok _ => true
  | Except.error _ => false

/-- A concrete completion order for three tasks: task 2 finishes first, then
task 0, then task 1. -/
def demoOrder : List (Fin 3) :=
  [2, 0, 1]

/-- A concrete preview-worker run: successful transport, no output directory,
`return_image_data=False`. -/
def demoPreviewRecord : ImageRecord PreviewMsg String Unit Unit :=
  previewWorker okGet (fun _ => "img.jpg") (fun _ => ())
    "https://api.helios.earth/v1" "observations"
    { observation_id := "obs1", out_dir := none, return_image_data := false }

/-! ### Lemmas about the pagination window list -/

/-- Every generated window starts at or after the loop variable, strictly
below `ms`, and carries exactly the clipped limit of its offset. -/
theorem windowsAux_mem {limit ms : Nat} :
    ∀ {fuel i : Nat} {w : Nat × Nat}, w ∈ windowsAux limit ms fuel i →
      i ≤ w.1 ∧ w.1 < ms ∧ w.2 = tempLimit ms w.1 limit := by
  intro fuel
  induction fuel with
  | zero => intro i w h; simp [windowsAux] at h
  | succ n ih =>
    intro i w h
    simp only [windowsAux] at h
    split at h
    · rcases List.mem_cons.mp h with h | h
      · subst h; exact ⟨Nat.le_refl _, by assumption, rfl⟩
      · have := ih h
        exact ⟨Nat.le_trans (Nat.le_add_right i limit) this.1, this.2.1, this.2.2⟩
    · simp at h

/-- The head of a nonempty generated window list starts at the loop
variable. -/
theorem windowsAux_head {limit ms : Nat} :
    ∀ {fuel i : Nat} {b : Nat × Nat} {t : List (Nat × Nat)},
      windowsAux limit ms fuel i = b :: t → b.1 = i ∧ i < ms := by
  intro fuel i b t h
  cases fuel with
  | zero => simp [windowsAux] at h
  | succ n =>
    simp only [windowsAux] at h
    split at h
    · exact ⟨(List.cons.injEq .. ▸ h).1 ▸ rfl, by assumption⟩
    · simp at h

/-- Once the loop variable reaches `ms`, no windows are generated. -/
theorem windowsAux_eq_nil {limit ms fuel i : Nat} (h : ms ≤ i) :
    windowsAux limit ms fuel i = [] := by
  cases fuel with
  | zero => rfl
  | succ n => simp [windowsAux, Nat.not_lt.mpr h]

/-- Consecutive generated windows are contiguous: each next window starts
exactly where the previous one ends. -/
theorem windowsAux_chain' {limit ms : Nat} :
    ∀ {fuel i : Nat},
      List.Chain' (fun a b : Nat × Nat => a.1 + a.2 = b.1)
        (windowsAux limit ms fuel i) := by
  intro fuel
  induction fuel with
  | zero => intro i; simp [windowsAux]
  | succ n ih =>
    intro i
    simp only [windowsAux]
    split
    · refine List.chain'_cons'.mpr ⟨?_, ih⟩
      intro b hb
      cases hE : windowsAux limit ms n (i + limit) with
      | nil => rw [hE] at hb; simp at hb
      | cons x t =>
        rw [hE] at hb
        simp only [List.head?_cons, Option.mem_def, Option.some.injEq] at hb
        subst hb
        obtain ⟨hx1, hlt⟩ := windowsAux_head hE
        have ht : tempLimit ms i limit = limit := by
          unfold tempLimit
          rw [if_neg (by omega)]
        rw [ht]
        omega
    · simp

/-- Generated windows are non-overlapping: every later window starts at or
after the end of every earlier one. -/
theorem windowsAux_pairwise {limit ms : Nat} :
    ∀ {fuel i : Nat},
      List.Pairwise (fun a b : Nat × Nat => a.1 + a.2 ≤ b.1)
        (windowsAux limit ms fuel i) := by
  intro fuel
  induction fuel with
  | zero => intro i; simp [windowsAux]
  | succ n ih =>
    intro i
    simp only [windowsAux]
    split
    · refine List.pairwise_cons.mpr ⟨?_, ih⟩
      intro b hb
      have hmem := windowsAux_mem hb
      have : tempLimit ms i limit ≤ limit := by
        simp only [tempLimit]; split <;> omega
      simp only []
      omega
    · simp

/-! ### Lemmas about the threaded fetch/executor model -/

/-- If any window's request raises, the batch fetch fails. -/
theorem fetchAll_eq_none {fetch : Nat → Nat → Option Response} :
    ∀ {l : List (Nat × Nat)} {w : Nat × Nat}, w ∈ l → fetch w.1 w.2 = none →
      fetchAll fetch l = none := by
  intro l
  induction l with
  | nil => intro w h; simp at h
  | cons a t ih =>
    intro w h hf
    rcases List.mem_cons.mp h with h | h
    · subst h; simp [fetchAll, hf]
    · cases hfa : fetch a.1 a.2 with
      | none => simp [fetchAll, hfa]
      | some r => simp [fetchAll, hfa, ih h hf]

/-- Unfolding one completion step of the executor. -/
theorem runThreaded_cons (worker : β → α) (tasks : List β) (init : List α)
    (o : Fin tasks.length) (os : List (Fin tasks.length)) :
    runThreaded worker tasks init (o :: os) =
      runThreaded worker tasks (init.set o.val (worker (tasks.get o))) os :=
  rfl

/-- The executor never changes the length of the pre-allocated slot list. -/
theorem runThreaded_length (worker : β → α) (tasks : List β) :
    ∀ (order : List (Fin tasks.length)) (init : List α),
      (runThreaded worker tasks init order).length = init.length := by
  intro order
  induction order with
  | nil => intro init; rfl
  | cons o os ih =>
    intro init
    rw [runThreaded_cons, ih, List.length_set]

/-- A slot holds its task's outcome once that task has completed, and its
initial value otherwise — independently of the completion order. -/
theorem runThreaded_get? (worker : β → α) (tasks : List β) :
    ∀ (order : List (Fin tasks.length)) (init : List α),
      init.length = tasks.length → ∀ j : Fin tasks.length,
      (runThreaded worker tasks init order)[j.val]? =
        if j ∈ order then some (worker (tasks.get j)) else init[j.val]? := by
  intro order
  induction order with
  | nil => intro init hlen j; simp [runThreaded]
  | cons o os ih =>
    intro init hlen j
    have hlen' : (init.set o.val (worker (tasks.get o))).length = tasks.length := by
      rw [List.length_set]; exact hlen
    rw [runThreaded_cons, ih _ hlen' j]
    by_cases hjos : j ∈ os
    · rw [if_pos hjos, if_pos (List.mem_cons_of_mem _ hjos)]
    · rw [if_neg hjos]
      by_cases hjo : j = o
      · subst hjo
        rw [if_pos (List.mem_cons_self _ _)]
        exact List.getElem?_set_self (by rw [hlen]; exact j.isLt)
      · rw [if_neg (by simp [List.mem_cons, hjo, hjos])]
        exact List.getElem?_set_ne (fun hval => hjo (Fin.ext hval.symm))

/-- Claim C6: for every starting skip and every positive limit, the window
sequence produced by the pagination loop consists of positive-size windows
that never extend past `max_skip`, is contiguous (each next window starts
where the previous ends), non-overlapping, and strictly increasing in
skip. -/
theorem c6_window_invariants (skip limit : Nat) (h : 0 < limit) :
    (∀ w ∈ windows skip limit, 0 < w.2 ∧ w.1 + w.2 ≤ max_skip)
    ∧ List.Chain' (fun a b : Nat × Nat => a.1 + a.2 = b.1) (windows skip limit)
    ∧ List.Pairwise (fun a b : Nat × Nat => a.1 + a.2 ≤ b.1) (windows skip limit)
    ∧ List.Pairwise (fun a b : Nat × Nat => a.1 < b.1) (windows skip limit) := by
  have hmemfact : ∀ w ∈ windows skip limit, 0 < w.2 ∧ w.1 + w.2 ≤ max_skip := by
    intro w hw
    obtain ⟨-, hlt, hlimit⟩ := windowsAux_mem hw
    unfold tempLimit at hlimit
    refine ⟨?_, ?_⟩ <;> rw [hlimit] <;> split <;> omega
  refine ⟨hmemfact, windowsAux_chain', windowsAux_pairwise, ?_⟩
  refine List.Pairwise.imp_of_mem ?_ (windowsAux_pairwise)
  intro a b ha _ hab
  have := (hmemfact a ha).1
  omega

/-- Witness for C6 at skip 0, limit 1500 (the last window is clipped to
1000). -/
theorem c6_window_invariants_witness :
    0 < 1500
    ∧ ((∀ w ∈ windows 0 1500, 0 < w.2 ∧ w.1 + w.2 ≤ max_skip)
      ∧ List.Chain' (fun a b : Nat × Nat => a.1 + a.2 = b.1) (windows 0 1500)
      ∧ List.Pairwise (fun a b : Nat × Nat => a.1 + a.2 ≤ b.1) (windows 0 1500)
      ∧ List.Pairwise (fun a b : Nat × Nat => a.1 < b.1) (windows 0 1500)) :=
  ⟨by decide, c6_window_invariants 0 1500 (by decide)⟩

/-- Claim C2: for every batch of N tasks handed to the worker pool, and every
completion order that eventually completes each task, the final slot list is
exactly the submission-ordered list of per-task outcomes: length N, with slot
i holding the outcome of task i. -/
theorem c2_submission_order (worker : β → α) (tasks : List β) (init : List α)
    (order : List (Fin tasks.length)) (hlen : init.length = tasks.length)
    (hcov : ∀ i : Fin tasks.length, i ∈ order) :
    runThreaded worker tasks init order = tasks.map worker := by
  apply List.ext_getElem?
  intro n
  by_cases hn : n < tasks.length
  · have hget := runThreaded_get? worker tasks order init hlen ⟨n, hn⟩
    rw [if_pos (hcov ⟨n, hn⟩)] at hget
    rw [hget, List.getElem?_map, List.getElem?_eq_getElem hn]
    simp [List.get_eq_getElem]
  · have h1 : (runThreaded worker tasks init order)[n]? = none := by
      rw [List.getElem?_eq_none_iff, runThreaded_length, hlen]
      omega
    have h2 : (tasks.map worker)[n]? = none := by
      rw [List.getElem?_eq_none_iff, List.length_map]
      omega
    rw [h1, h2]

/-- Witness for C2: three tasks completing in the order 2, 0, 1 still fill the
slots in submission order. -/
theorem c2_submission_order_witness :
    ([0, 0, 0] : List Nat).length = ([10, 20, 30] : List Nat).length
    ∧ runThreaded (fun n => n + 1) [10, 20, 30] [0, 0, 0] demoOrder = [11, 21, 31] :=
  ⟨by decide, by
    have h := c2_submission_order (fun n => n + 1) [10, 20, 30] [0, 0, 0]
      demoOrder (by decide) (by decide)
    simpa using h⟩

/-- Counterexample to claim C1: for skip 0, limit 100 against a server
declaring total 250, the fetched windows are [0,100), [100,100), [200,100) —
the last window's limit is clipped only at `max_skip`, never to the 50
remaining items, so the claimed window list [0,100), [100,100), [200,50) is
not produced. -/
theorem c1_windows_counterexample :
    okWindows (indexRun server250 0 100) = some [(0, 100), (100, 100), (200, 100)]
    ∧ ([(0, 100), (100, 100), (200, 100)] : List (Nat × Nat)) ≠
        [(0, 100), (100, 100), (200, 50)] :=
  ⟨by decide, by decide⟩

/-- Claim C1 as amended: for skip 0, limit 100, total 250 the engine fetches
the three windows [0,100), [100,100), [200,100) (the request limit is not
clipped to the remaining total); the server returns 100, 100 and 50 items for
them, in ascending-skip page order, and the merged collection holds 250
items. -/
theorem c1_pagination_scenario :
    indexRun server250 0 100 =
      IndexOutcome.ok
        [((0, 100), ⟨250, 100⟩), ((100, 100), ⟨250, 100⟩), ((200, 100), ⟨250, 50⟩)]
        false
    ∧ mergedCount (indexRun server250 0 100) = some 250 :=
  ⟨by decide, by decide⟩

/-- Claim C7: whenever the first (sizing) page is fetched, the truncation
warning is emitted if and only if the server-declared total strictly exceeds
`max_skip` — on whichever path the call then takes. -/
theorem c7_truncation_warning (fetch : Nat → Nat → Option Response)
    (skip limit : Nat) (w0 : Nat × Nat) (rest : List (Nat × Nat)) (r0 : Response)
    (hw : windows skip limit = w0 :: rest) (hf : fetch w0.1 w0.2 = some r0) :
    warnOf (indexRun fetch skip limit) = some (decide (r0.total > max_skip)) := by
  unfold indexRun
  rw [hw]
  dsimp only
  rw [hf]
  dsimp only
  by_cases hn : r0.nItems < limit
  · rw [if_pos hn]; rfl
  · rw [if_neg hn]
    by_cases hq : pySlice0 rest (nQueriesNeeded r0.total skip limit) = []
    · rw [if_pos hq]; rfl
    · rw [if_neg hq]
      by_cases hmin : min 20 (nQueriesNeeded r0.total skip limit) ≤ 0
      · rw [if_pos hmin]; rfl
      · rw [if_neg hmin]
        cases fetchAll fetch (pySlice0 rest (nQueriesNeeded r0.total skip limit)) <;> rfl

/-- Witness for C7 at the boundary: a declared total of exactly 4000 emits no
truncation warning. -/
theorem c7_truncation_warning_witness :
    warnOf (indexRun server4000 0 100) = some false := by
  have h := c7_truncation_warning server4000 0 100 (0, 100) ((windows 0 100).tail)
    ⟨4000, 100⟩ (by decide) (by decide)
  exact h.trans (by decide)

/-- Counterexample to claim C4: with a server whose page at offset 100
raises, the index call does not terminate with that error — the worker thread
dies before `task_done`, the queue join blocks forever, and the call never
returns at all. -/
theorem c4_subsequent_failure_counterexample :
    indexRun flakyServer 0 100 = IndexOutcome.hang false
    ∧ terminates (indexRun flakyServer 0 100) = false :=
  ⟨by decide, by decide⟩

/-- Claim C4 as amended: in the pure-pagination index path, a failure fetching
any subsequent page (after a successful first page that requires more pages)
makes the whole call block forever at the queue join — it never terminates,
and in particular never returns a partially merged collection. -/
theorem c4_subsequent_failure_hangs (fetch : Nat → Nat → Option Response)
    (skip limit : Nat) (w0 w : Nat × Nat) (rest : List (Nat × Nat)) (r0 : Response)
    (hw : windows skip limit = w0 :: rest) (hf : fetch w0.1 w0.2 = some r0)
    (hn : ¬ r0.nItems < limit)
    (hmem : w ∈ pySlice0 rest (nQueriesNeeded r0.total skip limit))
    (hfail : fetch w.1 w.2 = none) :
    indexRun fetch skip limit = IndexOutcome.hang (decide (r0.total > max_skip)) := by
  have hne : pySlice0 rest (nQueriesNeeded r0.total skip limit) ≠ [] :=
    List.ne_nil_of_mem hmem
  have hfa := fetchAll_eq_none hmem hfail
  unfold indexRun
  rw [hw]
  dsimp only
  rw [hf]
  dsimp only
  rw [if_neg hn, if_neg hne]
  by_cases hmin : min 20 (nQueriesNeeded r0.total skip limit) ≤ 0
  · rw [if_pos hmin]
  · rw [if_neg hmin, hfa]

/-- Witness for C4 as amended, at the concrete flaky server. -/
theorem c4_subsequent_failure_hangs_witness :
    indexRun flakyServer 0 100 = IndexOutcome.hang false := by
  have h := c4_subsequent_failure_hangs flakyServer 0 100 (0, 100) (100, 100)
    ((windows 0 100).tail) ⟨250, 100⟩ (by decide) (by decide) (by decide)
    (by decide) (by decide)
  exact h.trans (by decide)

/-- Claim C10: when the starting skip is at or above `max_skip`, the generated
window list is empty, and — whatever the network would have answered — the
call fails by popping from an empty list before issuing any request, returning
no collection at all. -/
theorem c10_skip_at_ceiling (skip limit : Nat) (fetch : Nat → Nat → Option Response)
    (h : max_skip ≤ skip) :
    windows skip limit = [] ∧ indexRun fetch skip limit = IndexOutcome.popError := by
  have hwin : windows skip limit = [] := windowsAux_eq_nil h
  refine ⟨hwin, ?_⟩
  unfold indexRun
  rw [hwin]

/-- Witness for C10 at skip 4000. -/
theorem c10_skip_at_ceiling_witness :
    max_skip ≤ 4000 ∧ windows 4000 7 = []
    ∧ indexRun server250 4000 7 = IndexOutcome.popError :=
  ⟨by decide, (c10_skip_at_ceiling 4000 7 server250 (by decide)).1,
    (c10_skip_at_ceiling 4000 7 server250 (by decide)).2⟩

/-- Claim C3, evaluated at the failing input (supporting the code-bug
verdict): a scalar entry is serialized as `key=value`, but a sequence-valued
entry is serialized with no `=` between the key and the comma-joined
elements — `{state: "Maryland", bbox: [1,2,3]}` becomes
`state=Maryland&bbox1,2,3`, not `state=Maryland&bbox=1,2,3`. -/
theorem c3_sequence_serialization :
    parseInputsForQuery
        [("state", QVal.scalar "Maryland"), ("bbox", QVal.seq ["1", "2", "3"])]
      = "state=Maryland&bbox1,2,3"
    ∧ "state=Maryland&bbox1,2,3" ≠ "state=Maryland&bbox=1,2,3" :=
  ⟨rfl, by decide⟩

/-- Claim C8: `succeeded` and `failed` partition every record set — each
record lands in exactly one of the two (their concatenation is a permutation
of the set, so the lengths add up to the set's length), and both are sublists
of the original, preserving its order. -/
theorem c8_partition (l : List (Record μ κ γ ε)) :
    (succeeded l).length + (failed l).length = l.length
    ∧ (succeeded l ++ failed l).Perm l
    ∧ List.Sublist (succeeded l) l ∧ List.Sublist (failed l) l := by
  have hperm : (succeeded l ++ failed l).Perm l := by
    simpa [succeeded, failed] using List.filter_append_perm (fun x => x.ok) l
  refine ⟨?_, hperm, ?_, ?_⟩
  · have := hperm.length_eq
    simpa [List.length_append] using this
  · exact List.filter_sublist (p := fun x : Record μ κ γ ε => x.ok) l
  · exact List.filter_sublist (p := fun x : Record μ κ γ ε => !x.ok) l

/-! ### Lemmas about the container attribute projection -/

/-- A container attribute access returns data exactly when every record in
the container defines the attribute; in particular it returns `[]` on an
empty container whatever the name. -/
theorem containerGetattr_isOk (attr : ρ → String → Option υ) :
    ∀ (records : List ρ) (name : String),
      isOkE (containerGetattr attr records name) =
        records.all (fun r => (attr r name).isSome) := by
  intro records name
  induction records with
  | nil => rfl
  | cons r rs ih =>
    simp only [containerGetattr, List.all_cons]
    cases hA : attr r name with
    | none => simp [isOkE]
    | some v =>
      simp only [Option.isSome_some, Bool.true_and]
      cases hC : containerGetattr attr rs name with
      | error e => rw [hC] at ih; simpa [isOkE] using ih
      | ok vs => rw [hC] at ih; simpa [isOkE] using ih

/-- A container attribute access returns exactly the ordered per-record
projection of the attribute: `ok vals` holds iff `vals` is pointwise the
attribute of each record, in record order. -/
theorem containerGetattr_ok_iff (attr : ρ → String → Option υ) :
    ∀ (records : List ρ) (name : String) (vals : List υ),
      containerGetattr attr records name = Except.ok vals ↔
        List.Forall₂ (fun r v => attr r name = some v) records vals := by
  intro records name
  induction records with
  | nil =>
    intro vals
    constructor
    · intro h
      simp only [containerGetattr] at h
      injection h with h
      subst h
      exact List.Forall₂.nil
    · intro h
      cases h
      rfl
  | cons r rs ih =>
    intro vals
    constructor
    · intro h
      simp only [containerGetattr] at h
      cases hA : attr r name with
      | none => rw [hA] at h; simp at h
      | some v =>
        rw [hA] at h
        cases hC : containerGetattr attr rs name with
        | error e => rw [hC] at h; simp at h
        | ok vs =>
          rw [hC] at h
          injection h with h
          subst h
          exact List.Forall₂.cons hA ((ih vs).mp hC)
    · intro h
      cases h with
      | cons hrv htail =>
        simp only [containerGetattr, hrv]
        rw [(ih _).mpr htail]

/-- Counterexample to claim C9: `"bogus"` is not a field of any record, yet
accessing it on an empty container returns the empty list instead of raising
`AttributeError`. -/
theorem c9_empty_container_counterexample :
    (Record.attr demoRecord "bogus").isNone = true
    ∧ containerGetattr Record.attr ([] : List (Record Unit Unit Unit Unit)) "bogus"
        = Except.ok [] :=
  ⟨by decide, rfl⟩

/-- Claim C9 as amended: container attribute access returns data exactly when
every record defines the field (so an empty container yields the empty
sequence for any name, including undefined ones, while a nonempty container
raises for an undefined name); on success the result is the ordered sequence
of that field's value across all records, one per record in record order. -/
theorem c9_projection_characterization (attr : ρ → String → Option υ)
    (records : List ρ) (name : String) :
    isOkE (containerGetattr attr records name) =
      records.all (fun r => (attr r name).isSome)
    ∧ ∀ vals, (containerGetattr attr records name = Except.ok vals ↔
        List.Forall₂ (fun r v => attr r name = some v) records vals) :=
  ⟨containerGetattr_isOk attr records name,
    containerGetattr_ok_iff attr records name⟩

/-- Counterexample to claim C5: a preview worker whose request succeeds while
`return_image_data` is false produces a record with neither `content` nor
`error` populated (and `ok` true) — "exactly one of content/error" fails. -/
theorem c5_preview_counterexample :
    demoPreviewRecord.content.isSome = false
    ∧ demoPreviewRecord.error.isSome = false
    ∧ demoPreviewRecord.ok = true :=
  ⟨by decide, by decide, by decide⟩

/-- Claim C5 as amended: every record produced by the preview worker has at
most one of `content` and `error` populated (a successful call with
`return_image_data=False` populates neither), and `ok` is true iff `error` is
absent. -/
theorem c5_record_population (get : String → Except ε (HttpResp β))
    (parseName : String → String) (decode : β → γ) (baseUrl coreApi : String)
    (msg : PreviewMsg) :
    ¬((previewWorker get parseName decode baseUrl coreApi msg).content.isSome = true
      ∧ (previewWorker get parseName decode baseUrl coreApi msg).error.isSome = true)
    ∧ ((previewWorker get parseName decode baseUrl coreApi msg).ok = true
      ↔ (previewWorker get parseName decode baseUrl coreApi msg).error = none) := by
  unfold previewWorker
  cases hget : get (baseUrl ++ "/" ++ coreApi ++ "/" ++ msg.observation_id ++ "/preview") with
  | error e => simp [hget, ImageRecord.ok]
  | ok resp =>
    by_cases hr : msg.return_image_data <;> simp [hget, hr, ImageRecord.ok]

end Helios
